/-
Verification of the schild2jamf identity & group normalization pipeline.

This file embeds the string-processing core of `schild2jamf.py` (and the
roster lookup of `utils.py`) as executable Lean definitions and proves, or
refutes, the specified properties of username derivation, initial-password
derivation, collision resolution, group-name canonicalization, course-list
resolution and the per-role group-field assembly of the CSV emitters.

Python string primitives (slicing, `replace`, `split`, `rfind`, substring
`in`, `lower`) are modelled by the `py*` helpers below, defined on the
character lists underlying `String`.
-/
import Mathlib

namespace Schild

/-- Python `str.replace(sub, repl)` on character lists: scan left to
right, replacing each non-overlapping occurrence of `sub`.  Structural
recursion on a fuel argument (one unit per consumed character) keeps the
definition kernel-reducible; `fuel ≥ l.length` makes it total.  (All
patterns used by the source are nonempty; for an empty pattern this model
is the identity.) -/
def replaceFuel (sub repl : List Char) : Nat → List Char → List Char
  | _, [] => []
  | 0, l => l
  | fuel + 1, c :: rest =>
    if sub ≠ [] ∧ List.isPrefixOf sub (c :: rest) = true then
      repl ++ replaceFuel sub repl fuel (List.drop sub.length (c :: rest))
    else
      c :: replaceFuel sub repl fuel rest

/-- `replaceFuel` with enough fuel for the whole list. -/
def replaceL (sub repl l : List Char) : List Char :=
  replaceFuel sub repl l.length l

/-- Accumulator pass behind Python `str.split(sep)` (nonempty separator):
`cur` holds the characters of the current field, reversed.  Fueled like
`replaceFuel`. -/
def splitFuel (sep : List Char) : Nat → List Char → List Char →
    List (List Char)
  | _, [], cur => [cur.reverse]
  | 0, l, cur => [cur.reverse ++ l]
  | fuel + 1, c :: rest, cur =>
    if sep ≠ [] ∧ List.isPrefixOf sep (c :: rest) = true then
      cur.reverse :: splitFuel sep fuel (List.drop sep.length (c :: rest)) []
    else
      splitFuel sep fuel rest (c :: cur)

/-- `splitFuel` with enough fuel for the whole list. -/
def splitAux (sep l cur : List Char) : List (List Char) :=
  splitFuel sep l.length l cur

/-- Python `",".join` on character lists. -/
def joinCommaL : List (List Char) → List Char
  | [] => []
  | [x] => x
  | x :: y :: xs => x ++ ',' :: joinCommaL (y :: xs)

/-- Python substring test `sub in s`. -/
def pyIn (sub s : String) : Bool := decide (sub.data <:+: s.data)

/-- Python slice `s[:n]` for `n ≥ 0`. -/
def pyTake (s : String) (n : Nat) : String := String.mk (s.data.take n)

/-- Python slice `s[n:]` for `n ≥ 0`. -/
def pyDropS (s : String) (n : Nat) : String := String.mk (s.data.drop n)

/-- Python slice `s[-n:]` for `n ≥ 1`: the last `min n (length s)`
characters. -/
def pyTakeRight (s : String) (n : Nat) : String :=
  String.mk (s.data.drop (s.data.length - n))

/-- Python `s.replace(sub, repl)`. -/
def pyReplace (s sub repl : String) : String :=
  String.mk (replaceL sub.data repl.data s.data)

/-- Python `s.lower()` (ASCII range; the pipeline only lowercases
ASCII output of the transliterator). -/
def pyLower (s : String) : String := String.mk (s.data.map Char.toLower)

/-- Python `s.split(sep)` for a nonempty separator. -/
def pySplit (s sep : String) : List String :=
  (splitAux sep.data s.data []).map String.mk

/-- Python `sep.join(l)` for `sep = ","`. -/
def pyJoinComma (l : List String) : String :=
  String.mk (joinCommaL (l.map String.data))

/-- Python slice `s[a:b]` with arbitrary (possibly negative) `Int` bounds. -/
def pySliceI (s : String) (a b : Int) : String :=
  let n : Int := (s.data.length : Int)
  let a' : Int := if a < 0 then max 0 (n + a) else min a n
  let b' : Int := if b < 0 then max 0 (n + b) else min b n
  String.mk ((s.data.drop a'.toNat).take (b' - a').toNat)

/-- Python `s.rfind(sub)`: largest index where `sub` occurs, else `-1`. -/
def pyRfind (s sub : String) : Int :=
  match ((List.range (s.data.length + 1)).filter
      (fun i => List.isPrefixOf sub.data (s.data.drop i))).getLast? with
  | some i => (i : Int)
  | none => -1

/-- Python `re.search(r"\d", s)`: the first decimal digit of `s` as a
one-character string, or `""` when there is none (the source catches the
resulting exception and uses `""`). -/
def firstDigit (s : String) : String :=
  match s.data.find? Char.isDigit with
  | some c => String.mk [c]
  | none => ""

/-! ## Data model (`schild2jamf.py`, classes `User`, `Group`, `Membership`) -/

/-- The raw per-person attributes extracted from one XML `person` element
(id, family, given, institutionrole, email, bday).  The XML iteration
itself is an excluded collaborator; each field is modelled as the text of
the corresponding sub-element. -/
structure PersonRaw where
  lehrerid : String
  family : String
  given : String
  institutionrole : String
  email : String
  bday : String
deriving Repr, DecidableEq

/-- `class User` of `schild2jamf.py`. -/
structure User where
  lehrerid : String
  name : String
  given : String
  institutionrole : String
  email : String
  birthday : String
  username : String
  initialpassword : String
deriving Repr, DecidableEq

/-- `class Group` of `schild2jamf.py` (name as already parsed; `rename_one`
below canonicalizes it). -/
structure Group where
  groupid : String
  name : String
  parent : String
deriving Repr, DecidableEq

/-- `class Membership` of `schild2jamf.py`. -/
structure Membership where
  membershipid : Nat
  groupid : String
  nameid : String
deriving Repr, DecidableEq

/-! ## Transliterator (`custom_transliterate`) -/

/-- Modelled from the spec: the generic Unicode-to-ASCII folding pass of
the external `unidecode` library (`schild2jamf.py` imports it; its code is
not part of this repository).  Printable ASCII maps to itself, a table of
common accented Latin letters maps to their base letters (`ß` to `ss`),
and any other character is dropped. -/
def unidecodeChar (c : Char) : List Char :=
  if c.toNat < 128 then [c]
  else
    match List.lookup c
      [('ß', "ss"), ('á', "a"), ('à', "a"), ('â', "a"), ('ã', "a"),
       ('å', "a"), ('ä', "a"), ('é', "e"), ('è', "e"), ('ê', "e"),
       ('ë', "e"), ('í', "i"), ('ì', "i"), ('î', "i"), ('ï', "i"),
       ('ó', "o"), ('ò', "o"), ('ô', "o"), ('õ', "o"), ('ö', "o"),
       ('ú', "u"), ('ù', "u"), ('û', "u"), ('ü', "u"), ('ç', "c"),
       ('ñ', "n"), ('ý', "y")] with
    | some r => r.data
    | none => []

/-- Modelled from the spec: `unidecode(name)` applied character-wise. -/
def unidecodeS (s : String) : String :=
  String.mk (s.data.flatMap unidecodeChar)

/-- `custom_transliterate` (lines 497-501): replace the six umlaut
characters by their digraphs in the dictionary's insertion order, then
apply the generic fold. -/
def custom_transliterate (name : String) : String :=
  unidecodeS
    (pyReplace (pyReplace (pyReplace (pyReplace (pyReplace (pyReplace name
      "ä" "ae") "ö" "oe") "ü" "ue") "Ä" "Ae") "Ö" "Oe") "Ü" "Ue")

/-! ## Identity normalizer (`return_username`, passwords, collisions) -/

/-- `return_username` (lines 504-550).  The source assigns `username` only
in the two recognized `typ` branches; any other `typ` leaves the local
variable undefined and the return statement fails, modelled by
`Except.error`. -/
def return_username (given last typ : String) : Except Unit String :=
  if typ = "vorname.nachname" then
    .ok (pyLower
      (((pySplit (custom_transliterate given) " ").headD "") ++ "." ++
        pyReplace (pyReplace (custom_transliterate last) " " "") "-" ""))
  else if typ = "kurzform" then
    .ok (pyLower
      (pyTake ((pySplit (custom_transliterate given) " ").headD "") 4 ++
        pyTake (pyReplace (pyReplace (custom_transliterate last) " " "") "-" "") 4))
  else .error ()

/-- `strip_hyphens_from_birthday` (lines 553-567). -/
def strip_hyphens_from_birthday (birthday : String) : String :=
  pyReplace birthday "-" ""

/-- The initial-password formula shared by `parse_users` line 143 and
`return_initial_password` lines 570-605:
`lehrerid[-3:] + username[-2:] + strip_hyphens_from_birthday(birthday)[:3]
+ username[:2]`. -/
def initial_password_formula (lehrerid username birthday : String) : String :=
  pyTakeRight lehrerid 3 ++ pyTakeRight username 2 ++
    pyTake (strip_hyphens_from_birthday birthday) 3 ++ pyTake username 2

/-- `return_initial_password` (lines 570-605). -/
def return_initial_password (user : User) : String :=
  initial_password_formula user.lehrerid user.username user.birthday

/-- The duplicate-username scan of `parse_users` (lines 137-140): compare
the evolving candidate against every already-collected user, in list
order, appending `"1"` on each match. -/
def resolve_collision (users : List User) (candidate : String) : String :=
  users.foldl (fun c u => if c = u.username then c ++ "1" else c) candidate

/-- The student birthday reformatting of `parse_users` lines 126-127:
`bday.split("-")` then `f"{t[2]}.{t[1]}.{t[0]}"`; Python raises
`IndexError` when fewer than three fields exist. -/
def format_birthday (bday : String) : Except Unit String :=
  let t := pySplit bday "-"
  match t[2]?, t[1]?, t[0]? with
  | some d, some m, some y => .ok (d ++ "." ++ m ++ "." ++ y)
  | _, _, _ => .error ()

/-! ## `parse_users` (lines 58-157)

The loop body is embedded as a step function over the state
`(users collected so far, value of the locals tempusername/birthday left
over from the previous iteration)`.  When `institutionrole` is none of
`"Student"`, `"faculty"`, `"extern"`, the source reuses those stale
locals; on the very first such person they are undefined and Python
raises `NameError`, modelled by `Except.error`. -/

/-- One iteration of the `parse_users` person loop. -/
def parse_step (st : List User × Option (String × String)) (p : PersonRaw) :
    Except Unit (List User × Option (String × String)) :=
  (show Except Unit (String × String) from
  if p.institutionrole = "Student" then
    match format_birthday p.bday, return_username p.given p.family "kurzform" with
    | .ok birthday, .ok tu => .ok (tu, birthday)
    | _, _ => .error ()
  else if p.institutionrole = "faculty" ∨ p.institutionrole = "extern" then
    match return_username p.given p.family "vorname.nachname" with
    | .ok tu => .ok (tu, "")
    | .error _ => .error ()
  else
    match st.2 with
    | some pr => .ok pr
    | none => .error ()).bind fun tb =>
  let uname := resolve_collision st.1 tb.1
  let pw := initial_password_formula p.lehrerid uname tb.2
  .ok (st.1 ++
    [⟨p.lehrerid, p.family, p.given, p.institutionrole, p.email, tb.2, uname, pw⟩],
    some (uname, tb.2))

/-- `parse_users(users, root)`: fold the person loop over the raw person
records, starting from the caller-supplied `users` list (the locals start
undefined). -/
def parse_users_embed (init : List User) (ps : List PersonRaw) :
    Except Unit (List User) :=
  (ps.foldlM parse_step (init, none)).map Prod.fst

/-! ## Group canonicalizer (`rename_groups`, lines 216-343)

`rename_groups` rewrites each group's name in place; `rename_one` is the
per-group transformation, parameterized by the global two-digit school
year `schuljahr` and the curated table `mappings.mappinggroups` (an
association list, first match wins).  Python exceptions (`IndexError` on
too few comma fields, `KeyError` on a missing table entry) are modelled
by `Except.error`. -/

/-- The `"Klasse"` branch (lines 250-255): on the name without its first 7
characters, remove spaces, shorten `Schueler`/`Lehrer`, remove `--`, `-`,
`)`, shorten `UNESCO`, then append the school year. -/
def klasse_rename (schuljahr name : String) : String :=
  pyReplace (pyReplace (pyReplace (pyReplace (pyReplace (pyReplace (pyReplace
    (pyDropS name 7) " " "") "Schueler" "S") "Lehrer" "L") "--" "") "-" "")
    ")" "") "UNESCO" "U" ++ schuljahr

/-- The common reassembly of the `"BI8"` branch (lines 258-286) and the
general-parenthesis branch (lines 289-317): pick a slice around the last
parenthesis pair, clean it, split on commas, and rebuild the name from
fields 0-3, keeping field 1 (and the first digit of the whole name) only
when field 1 is `GK` or `LK`. -/
def paren_rename (schuljahr name : String) (bi8 : Bool) : Except Unit String :=
  let start := pyRfind name "("
  let ende := pyRfind name ")"
  let digitfound := firstDigit name
  let templist :=
    if bi8 then
      pySplit (pyReplace (pyReplace (pySliceI name (start - 3) ende) " " "")
        "(9" "") ","
    else
      pySplit (pyReplace (pyReplace (pySliceI name (start + 1) ende) " " "")
        "UNESCO" "U") ","
  match templist[0]?, templist[1]?, templist[2]?, templist[3]? with
  | some t0, some t1, some t2, some t3 =>
    let keep := t1 = "GK" ∨ t1 = "LK"
    let assembled := t0 ++ (if keep then t1 else "") ++
      (if keep then digitfound else "") ++ t2 ++ t3
    .ok (pyReplace (pyReplace (pyReplace (pyReplace assembled
      "Schueler" "S") "Lehrer" "L") "--" "-") ")" "" ++ schuljahr)
  | _, _, _, _ => .error ()

/-- The catch-all constant of lines 320-326:
`"Alle-Schueler".replace("Schueler","S").replace("Lehrer","L")
.replace(")","").replace("-","")`. -/
def alle_schueler_renamed : String :=
  pyReplace (pyReplace (pyReplace (pyReplace "Alle-Schueler"
    "Schueler" "S") "Lehrer" "L") ")" "") "-" ""

/-- The catch-all constant of lines 329-335. -/
def alle_lehrer_renamed : String :=
  pyReplace (pyReplace (pyReplace (pyReplace "Alle-Lehrer"
    "Schueler" "S") "Lehrer" "L") ")" "") "-" ""

/-- The canonicalization applied to one group name by the body of the
`rename_groups` loop, with its branches tested sequentially against the
progressively rewritten name exactly as in the source. -/
def rename_one (schuljahr : String) (mapping : List (String × String))
    (name0 : String) : Except Unit String :=
  let n1 := if pyIn "Klasse" name0 then klasse_rename schuljahr name0 else name0
  (show Except Unit String from
    if pyIn "BI8" n1 then paren_rename schuljahr n1 true
    else if pyIn "(" n1 then paren_rename schuljahr n1 false
    else .ok n1).bind fun n2 =>
  let n3 := if pyIn "Alle - Schueler" n2 then alle_schueler_renamed else n2
  let n4 := if pyIn "Alle - Lehrer" n3 then alle_lehrer_renamed else n3
  (show Except Unit String from
    if pyIn "Fach" n4 then
      match List.lookup n4 mapping with
      | some v => .ok v
      | none => .error ()
    else .ok n4).bind fun n5 =>
  if pyIn "Bereich" n5 then
    match List.lookup n5 mapping with
    | some v => .ok v
    | none => .error ()
  else .ok n5

/-! ## Membership resolver (`return_list_of_courses_of_student`,
lines 608-652) -/

/-- `[group.name for group in groups if group.groupid == course][0]`:
the name of the first group whose id matches, if any. -/
def find_group_name (groups : List Group) (course : String) : Option String :=
  (groups.find? (fun g => g.groupid = course)).map Group.name

/-- One iteration of the course loop: a failed lookup resets the whole
accumulated list (`courseslist = []` inside `except`); an empty name is
skipped; otherwise the name is appended. -/
def courses_step (groups : List Group) (acc : List String) (course : String) :
    List String :=
  match find_group_name groups course with
  | none => []
  | some n => if n = "" then acc else acc ++ [n]

/-- `return_list_of_courses_of_student(studentid, memberships, groups)`. -/
def return_list_of_courses_of_student (studentid : String)
    (memberships : List Membership) (groups : List Group) : List String :=
  ((memberships.filter (fun m => m.nameid = studentid)).map
    Membership.groupid).foldl (courses_step groups) []

/-! ## Provisioning record assembly: the `Groups` field -/

/-- The `Groups` value written per student by `create_jamf_accounts`
(lines 736-767): always the plain comma-join of the course list — the
source contains no catch-all handling on this path. -/
def student_groups_field (courses : List String) : String :=
  pyJoinComma courses

/-- The supplementary identifiers appended by the effective (second)
`create_jamf_accounts_teachers` definition, line 903. -/
def teacher_supplementary : String :=
  ",iPads-Lehrerzimmer_1-15,iPads-Lehrerzimmer_alle,iPads-Lehrerzimmer_16-30"

/-- The teacher group filter of lines 885-889: keep groups containing one
of `09`, `10`, `EF`, `Q1` that are not `EFL24`, `Q1L24`, `Q2L24`. -/
def teacher_filter_keep (g : String) : Bool :=
  (pyIn "09" g || pyIn "10" g || pyIn "EF" g || pyIn "Q1" g) &&
    !(g = "EFL24" || g = "Q1L24" || g = "Q2L24")

/-- The teacher group update of lines 892-901: in a six-character group
starting with `09` or `10` whose fourth character is `L`, replace that
character by `S`. -/
def teacher_update (g : String) : String :=
  if g.data.length = 6 ∧ (pySliceI g 0 2 = "09" ∨ pySliceI g 0 2 = "10") ∧
      pySliceI g 3 4 = "L" then
    pyTake g 3 ++ "S" ++ pyDropS g 4
  else g

/-- The `TeacherGroups` value of the effective
`create_jamf_accounts_teachers` (lines 876-903): a row is emitted only
when `"AlleL"` occurs in the comma-joined course string; its groups are
then the filtered, updated courses plus the fixed supplementary list. -/
def teacher_groups_field (courses : List String) : Option String :=
  let groups := pyJoinComma courses
  if pyIn "AlleL" groups then
    let filtered := (pySplit groups ",").filter teacher_filter_keep
    let updated := filtered.map teacher_update
    some (pyJoinComma updated ++ teacher_supplementary)
  else none

/-! ## Device-serial roster lookup (`utils.get_dict_name_serial` result
consumed by `create_jamf_accounts`, line 726) -/

/-- `ser_nums = [dict_name_serial[rows[0]] for rows in reader]`: each
roster name is looked up in the device registry; Python raises `KeyError`
on a missing name. -/
def serials_from_roster (registry : List (String × String))
    (names : List String) : Except Unit (List String) :=
  names.mapM (fun nm =>
    match List.lookup nm registry with
    | some s => Except.ok s
    | none => Except.error ())

/-! ## Spec-side formulations

Definitions written from the specification's wording, to be compared with
the source-embedded functions above. -/

/-- Spec §4.2: "the given name's first space-delimited token". -/
def first_space_token (s : String) : String :=
  String.mk (s.data.takeWhile (fun c => c != ' '))

/-- Spec §4.2: "the family name with spaces and hyphens stripped". -/
def strip_spaces_hyphens (s : String) : String :=
  String.mk (s.data.filter (fun c => c != ' ' && c != '-'))

/-- Spec §4.2, shortform: first 4 characters of the transliterated given
name's first token, then first 4 characters of the transliterated family
name with spaces and hyphens stripped; lowercase. -/
def spec_shortform_username (given family : String) : String :=
  pyLower (pyTake (first_space_token (custom_transliterate given)) 4 ++
    pyTake (strip_spaces_hyphens (custom_transliterate family)) 4)

/-- Spec §4.2, dotted: transliterated given name's first token, a period,
and the transliterated family name with spaces and hyphens stripped;
lowercase. -/
def spec_dotted_username (given family : String) : String :=
  pyLower (first_space_token (custom_transliterate given) ++ "." ++
    strip_spaces_hyphens (custom_transliterate family))

/-- Spec §4.5 (claim C4): the canonical name of a resolvable, non-empty
course edge. -/
def spec_course_name (groups : List Group) (course : String) : Option String :=
  match find_group_name groups course with
  | some n => if n = "" then none else some n
  | none => none

/-- The longest suffix of the course-id list in which every id resolves to
a known group (what survives the accumulator reset of
`return_list_of_courses_of_student`). -/
def resolvable_suffix (groups : List Group) (cs : List String) : List String :=
  (cs.reverse.takeWhile (fun c => (find_group_name groups c).isSome)).reverse

/-- Spec-side description of the course list actually returned: the
canonicalized names of the memberships after the last unresolvable one,
in order, duplicates retained, empty names skipped. -/
def spec_courses (groups : List Group) (cs : List String) : List String :=
  (resolvable_suffix groups cs).filterMap (spec_course_name groups)

/-- One character of the class `[a-z0-9.]` of the spec's username regular
expression (claim C9). -/
def username_char_ok (c : Char) : Bool :=
  (decide ('a' ≤ c) && decide (c ≤ 'z')) ||
    (decide ('0' ≤ c) && decide (c ≤ '9')) || c == '.'

/-- `username` is non-empty and matches `^[a-z0-9.]+$` (claim C9). -/
def username_matches (s : String) : Bool :=
  !s.data.isEmpty && s.data.all username_char_ok

/-- Hypotheses under which the username invariant of claim C9 does hold
for one person: every character of the name material entering
`return_username` lowercases into `[a-z0-9.]`, and a Student's username
sources are not both empty. -/
def person_name_ok (p : PersonRaw) : Prop :=
  (p.institutionrole = "Student" →
    (∀ c ∈ (first_space_token (custom_transliterate p.given)).data,
        username_char_ok c.toLower = true) ∧
    (∀ c ∈ (strip_spaces_hyphens (custom_transliterate p.family)).data,
        username_char_ok c.toLower = true) ∧
    ((first_space_token (custom_transliterate p.given)).data ≠ [] ∨
      (strip_spaces_hyphens (custom_transliterate p.family)).data ≠ [])) ∧
  ((p.institutionrole = "faculty" ∨ p.institutionrole = "extern") →
    (∀ c ∈ (first_space_token (custom_transliterate p.given)).data,
        username_char_ok c.toLower = true) ∧
    (∀ c ∈ (strip_spaces_hyphens (custom_transliterate p.family)).data,
        username_char_ok c.toLower = true))

/-! ### Bridging lemmas: Python `split(" ")[0]` / `replace(x, "")` versus
token extraction and character filtering -/

@[simp]
lemma data_mk (l : List Char) : (String.mk l).data = l := rfl

lemma splitFuel_single_head (a : Char) (fuel : Nat) :
    ∀ l cur : List Char, l.length ≤ fuel →
      (splitFuel [a] fuel l cur).head? =
        some (cur.reverse ++ l.takeWhile (fun c => c != a)) := by
  induction fuel with
  | zero =>
    intro l cur hl
    cases l with
    | nil => simp [splitFuel]
    | cons c rest => simp at hl
  | succ n ih =>
    intro l cur hl
    cases l with
    | nil => simp [splitFuel]
    | cons c rest =>
      rw [splitFuel]
      by_cases hac : a = c
      · subst hac
        rw [if_pos ⟨by simp, by simp [List.isPrefixOf]⟩]
        simp [List.takeWhile_cons]
      · have hpre : List.isPrefixOf [a] (c :: rest) = false := by
          simp [List.isPrefixOf, hac]
        rw [hpre, if_neg (by simp)]
        rw [ih rest (c :: cur) (by simpa using Nat.le_of_succ_le_succ hl)]
        have hca : (c != a) = true := by
          simp only [bne_iff_ne, ne_eq]
          exact fun h => hac h.symm
        simp [List.takeWhile_cons, hca]

lemma splitAux_single_head (a : Char) (l cur : List Char) :
    (splitAux [a] l cur).head? =
      some (cur.reverse ++ l.takeWhile (fun c => c != a)) :=
  splitFuel_single_head a l.length l cur le_rfl

lemma pySplit_space_head (s : String) :
    (pySplit s " ").headD "" = first_space_token s := by
  have h := splitAux_single_head ' ' s.data []
  unfold pySplit first_space_token
  have hdata : (" " : String).data = [' '] := rfl
  rw [hdata]
  rcases E : splitAux [' '] s.data [] with _ | ⟨x, xs⟩
  · rw [E] at h; simp at h
  · rw [E] at h
    simp only [List.head?_cons, Option.some.injEq, List.reverse_nil,
      List.nil_append] at h
    subst h
    rfl

lemma replaceFuel_single_del (a : Char) (fuel : Nat) :
    ∀ l : List Char, l.length ≤ fuel →
      replaceFuel [a] [] fuel l = l.filter (fun c => c != a) := by
  induction fuel with
  | zero =>
    intro l hl
    cases l with
    | nil => rfl
    | cons c rest => simp at hl
  | succ n ih =>
    intro l hl
    cases l with
    | nil => rfl
    | cons c rest =>
      rw [replaceFuel]
      by_cases hac : a = c
      · subst hac
        rw [if_pos ⟨by simp, by simp [List.isPrefixOf]⟩]
        simp [ih rest (by simpa using Nat.le_of_succ_le_succ hl)]
      · have hpre : List.isPrefixOf [a] (c :: rest) = false := by
          simp [List.isPrefixOf, hac]
        rw [hpre, if_neg (by simp)]
        have hca : (c != a) = true := by
          simp only [bne_iff_ne, ne_eq]
          exact fun h => hac h.symm
        simp [hca, ih rest (by simpa using Nat.le_of_succ_le_succ hl)]

lemma replaceL_single_del (a : Char) (l : List Char) :
    replaceL [a] [] l = l.filter (fun c => c != a) :=
  replaceFuel_single_del a l.length l le_rfl

lemma pyReplace_space_hyphen (s : String) :
    pyReplace (pyReplace s " " "") "-" "" = strip_spaces_hyphens s := by
  unfold pyReplace strip_spaces_hyphens
  have h1 : (" " : String).data = [' '] := rfl
  have h2 : ("-" : String).data = ['-'] := rfl
  have h3 : ("" : String).data = [] := rfl
  rw [h1, h2, h3, data_mk, replaceL_single_del, replaceL_single_del,
    List.filter_filter]
  congr 1
  apply List.filter_congr
  intro c _
  rw [Bool.and_comm]

/-- `return_username(given, last, "kurzform")` computes exactly the
spec's shortform username. -/
lemma return_username_kurzform (given last : String) :
    return_username given last "kurzform" =
      .ok (spec_shortform_username given last) := by
  unfold return_username spec_shortform_username
  rw [if_neg (by decide), if_pos rfl, pySplit_space_head,
    pyReplace_space_hyphen]

/-- `return_username(given, last, "vorname.nachname")` computes exactly
the spec's dotted username. -/
lemma return_username_dotted (given last : String) :
    return_username given last "vorname.nachname" =
      .ok (spec_dotted_username given last) := by
  unfold return_username spec_dotted_username
  rw [if_pos rfl, pySplit_space_head, pyReplace_space_hyphen]

/-! ### The `parse_users` step on a Student person -/

/-- What one `parse_users` iteration does to a `"Student"` person whose
`bday` splits into three hyphen fields: the stored birthday is the
reformatted `DD.MM.YYYY` string, and the password formula is applied to
that reformatted string. -/
lemma parse_step_student (users : List User) (prev : Option (String × String))
    (p : PersonRaw) (yv mo d : String) (h : p.institutionrole = "Student")
    (hb : pySplit p.bday "-" = [yv, mo, d]) :
    parse_step (users, prev) p =
      .ok (users ++
        [⟨p.lehrerid, p.family, p.given, p.institutionrole, p.email,
          d ++ "." ++ mo ++ "." ++ yv,
          resolve_collision users (spec_shortform_username p.given p.family),
          initial_password_formula p.lehrerid
            (resolve_collision users (spec_shortform_username p.given p.family))
            (d ++ "." ++ mo ++ "." ++ yv)⟩],
        some (resolve_collision users (spec_shortform_username p.given p.family),
          d ++ "." ++ mo ++ "." ++ yv)) := by
  unfold parse_step format_birthday
  rw [h, return_username_kurzform, hb]
  rfl

/-- What one `parse_users` iteration does to a person whose role is none
of `"Student"`, `"faculty"`, `"extern"`, when a previous iteration has
left values in the locals: those stale values are used, and the stale
username goes through collision resolution again. -/
lemma parse_step_unknown (users : List User) (u b : String)
    (p : PersonRaw) (h2 : p.institutionrole ≠ "Student")
    (h3 : p.institutionrole ≠ "faculty") (h4 : p.institutionrole ≠ "extern") :
    parse_step (users, some (u, b)) p =
      .ok (users ++
        [⟨p.lehrerid, p.family, p.given, p.institutionrole, p.email, b,
          resolve_collision users u,
          initial_password_formula p.lehrerid (resolve_collision users u) b⟩],
        some (resolve_collision users u, b)) := by
  unfold parse_step
  simp only [if_neg h2, if_neg (show
    ¬(p.institutionrole = "faculty" ∨ p.institutionrole = "extern") by
      rintro (h | h); exacts [h3 h, h4 h])]
  rfl

/-- Folding one more person when its step succeeds. -/
lemma foldlM_parse_cons_ok {st st' : List User × Option (String × String)}
    {p : PersonRaw} {ps : List PersonRaw} (h : parse_step st p = .ok st') :
    List.foldlM parse_step st (p :: ps) = List.foldlM parse_step st' ps := by
  rw [List.foldlM_cons, h]
  rfl

/-- On the very first person, an unrecognized role leaves the locals
undefined and the pass fails. -/
lemma parse_step_unknown_first (users : List User) (p : PersonRaw)
    (h2 : p.institutionrole ≠ "Student") (h3 : p.institutionrole ≠ "faculty")
    (h4 : p.institutionrole ≠ "extern") :
    parse_step (users, none) p = .error () := by
  unfold parse_step
  simp only [if_neg h2, if_neg (show
    ¬(p.institutionrole = "faculty" ∨ p.institutionrole = "extern") by
      rintro (h | h); exacts [h3 h, h4 h])]
  rfl

/-! ## Claim theorems -/

/-- Claim C3 (confirmed): the derived username is, for role Student, the
lowercase concatenation of the first 4 characters of the transliterated
given name's first space-delimited token with the first 4 characters of
the transliterated family name with spaces and hyphens stripped; for the
faculty/extern roles, the lowercase transliterated given name's first
token, a period, and the transliterated family name with spaces and
hyphens stripped; and `("Michael", "Müller")` with role Student yields
`"michmuel"`. -/
theorem claim_C3_username_derivation :
    (∀ given family : String,
      return_username given family "kurzform" =
        .ok (spec_shortform_username given family)) ∧
    (∀ given family : String,
      return_username given family "vorname.nachname" =
        .ok (spec_dotted_username given family)) ∧
    return_username "Michael" "Müller" "kurzform" = .ok "michmuel" := by
  refine ⟨return_username_kurzform, return_username_dotted, ?_⟩
  rfl

/-- Claim C8 (confirmed): the literal catch-all group names
`"Alle - Schueler"` and `"Alle - Lehrer"` canonicalize to the fixed
constants `"AlleS"` and `"AlleL"`, with no school-year suffix appended,
for every school year and every mapping table. -/
theorem claim_C8_catchall_names (schuljahr : String)
    (mapping : List (String × String)) :
    rename_one schuljahr mapping "Alle - Schueler" = .ok "AlleS" ∧
    rename_one schuljahr mapping "Alle - Lehrer" = .ok "AlleL" :=
  ⟨rfl, rfl⟩

/-- Claim C2 (counterexample): with three persons sharing the base
username `"michmuel"`, the third is assigned `"michmuel11"`, not the
`"michmuel1"` the claim asserts. -/
theorem claim_C2_counterexample :
    (parse_users_embed []
      [⟨"a1", "Müller", "Michael", "Student", "", "2008-05-12"⟩,
       ⟨"a2", "Müller", "Michael", "Student", "", "2007-03-04"⟩,
       ⟨"a3", "Müller", "Michael", "Student", "", "2006-01-02"⟩]).map
        (List.map User.username) =
      .ok ["michmuel", "michmuel1", "michmuel11"] ∧
    ("michmuel11" : String) ≠ "michmuel1" := by
  constructor
  · rfl
  · decide

/-- Claim C2 (amended): the duplicate scan compares the evolving candidate
against every previously assigned username in assignment order, appending
`"1"` on each match, so collisions cascade by repeated `"1"`-suffixes:
a third person sharing the base is assigned `base ++ "11"`; the pipeline
on three identical persons yields `michmuel`, `michmuel1`,
`michmuel11`. -/
theorem claim_C2_collision_amended :
    (∀ base : String,
      resolve_collision
        [⟨"", "", "", "", "", "", base, ""⟩,
         ⟨"", "", "", "", "", "", base ++ "1", ""⟩] base = base ++ "11") ∧
    (parse_users_embed []
      [⟨"a1", "Müller", "Michael", "Student", "", "2008-05-12"⟩,
       ⟨"a2", "Müller", "Michael", "Student", "", "2007-03-04"⟩,
       ⟨"a3", "Müller", "Michael", "Student", "", "2006-01-02"⟩]).map
        (List.map User.username) =
      .ok ["michmuel", "michmuel1", "michmuel11"] := by
  constructor
  · intro base
    have h11 : ("1" : String) ++ "1" = "11" := rfl
    simp [resolve_collision, String.append_assoc, h11]
  · rfl

/-- Claim C1 (counterexample): for the spec's own example person
(`externalId="DE.NW.123456X789"`, `givenName="Michael"`,
`familyName="Müller"`, role Student, `birthDate="2008-05-12"`, which
derives username `"michmuel"`), the pipeline's derived initial password is
`"789el12.mi"`, not the `"789el200mi"` the claim asserts. -/
theorem claim_C1_counterexample :
    (parse_users_embed []
      [⟨"DE.NW.123456X789", "Müller", "Michael", "Student", "", "2008-05-12"⟩]).map
        (List.map User.initialpassword) = .ok ["789el12.mi"] ∧
    ("789el12.mi" : String) ≠ "789el200mi" := by
  constructor
  · rfl
  · decide

/-- Claim C1 (amended): the initial password is
`externalId[-3:] ++ username[-2:] ++ (stored birthday)[:3 after hyphen
removal] ++ username[:2]`, where the stored birthday of a Student is the
raw ISO birth date reformatted to `DD.MM.YYYY` — so the third slice is
the two-digit day followed by a dot, not the year prefix of the ISO
date.  Both the `parse_users` formula and `return_initial_password` yield
this value. -/
theorem claim_C1_password_amended (p : PersonRaw) (yv mo d : String)
    (h : p.institutionrole = "Student")
    (hb : pySplit p.bday "-" = [yv, mo, d]) :
    ∃ u : User,
      parse_users_embed [] [p] = .ok [u] ∧
      u.username = spec_shortform_username p.given p.family ∧
      u.birthday = d ++ "." ++ mo ++ "." ++ yv ∧
      u.initialpassword =
        pyTakeRight p.lehrerid 3 ++ pyTakeRight u.username 2 ++
          pyTake (strip_hyphens_from_birthday u.birthday) 3 ++
          pyTake u.username 2 ∧
      u.initialpassword = return_initial_password u := by
  refine ⟨⟨p.lehrerid, p.family, p.given, p.institutionrole, p.email,
    d ++ "." ++ mo ++ "." ++ yv, spec_shortform_username p.given p.family,
    initial_password_formula p.lehrerid
      (spec_shortform_username p.given p.family)
      (d ++ "." ++ mo ++ "." ++ yv)⟩, ?_, rfl, rfl, rfl, rfl⟩
  unfold parse_users_embed
  rw [List.foldlM_cons, parse_step_student [] none p yv mo d h hb]
  rfl

/-- Claim C1 (witness): the amended theorem applied to the spec's example
person. -/
theorem claim_C1_witness :
    ∃ u : User,
      parse_users_embed []
        [⟨"DE.NW.123456X789", "Müller", "Michael", "Student", "",
          "2008-05-12"⟩] = .ok [u] ∧
      u.username = spec_shortform_username "Michael" "Müller" ∧
      u.birthday = "12" ++ "." ++ "05" ++ "." ++ "2008" ∧
      u.initialpassword =
        pyTakeRight "DE.NW.123456X789" 3 ++ pyTakeRight u.username 2 ++
          pyTake (strip_hyphens_from_birthday u.birthday) 3 ++
          pyTake u.username 2 ∧
      u.initialpassword = return_initial_password u :=
  claim_C1_password_amended
    ⟨"DE.NW.123456X789", "Müller", "Michael", "Student", "", "2008-05-12"⟩
    "2008" "05" "12" rfl (by decide)

/-- Claim C10 (counterexample): after a Student deriving `"michmuel"`, a
person with the capitalized role `"Faculty"` is recorded with username
`"michmuel1"` — the stale username goes through collision resolution
again, so it is not reused verbatim as the claim asserts. -/
theorem claim_C10_counterexample :
    (parse_users_embed []
      [⟨"a1", "Müller", "Michael", "Student", "", "2008-05-12"⟩,
       ⟨"a2", "Schmidt", "Anna", "Faculty", "", "1990-01-01"⟩]).map
        (List.map User.username) = .ok ["michmuel", "michmuel1"] ∧
    ("michmuel1" : String) ≠ "michmuel" := by
  constructor
  · rfl
  · decide

/-- Claim C10 (amended): `parse_users` computes a fresh username and
birthday only for the exact role strings `"Student"`, `"faculty"`,
`"extern"`; for any other role (including `"Faculty"`/`"Extern"`) the
locals of the previously processed person are reused — the birthday
verbatim, the username as a fresh collision-resolution candidate, which
(equalling that person's username) receives at least one `"1"` suffix —
and if such a person comes first, the pass fails. -/
theorem claim_C10_role_dispatch_amended (p1 p2 : PersonRaw) (yv mo d : String)
    (h1 : p1.institutionrole = "Student")
    (hb : pySplit p1.bday "-" = [yv, mo, d])
    (h2 : p2.institutionrole ≠ "Student")
    (h3 : p2.institutionrole ≠ "faculty")
    (h4 : p2.institutionrole ≠ "extern") :
    (∃ u1 u2 : User,
      parse_users_embed [] [p1, p2] = .ok [u1, u2] ∧
      u2.lehrerid = p2.lehrerid ∧ u2.name = p2.family ∧
      u2.institutionrole = p2.institutionrole ∧
      u2.birthday = u1.birthday ∧
      u2.username = u1.username ++ "1") ∧
    parse_users_embed [] [p2] = .error () := by
  have hbd : ∀ x : String × String, x = (x.1, x.2) := fun x => rfl
  constructor
  · refine ⟨⟨p1.lehrerid, p1.family, p1.given, p1.institutionrole, p1.email,
      d ++ "." ++ mo ++ "." ++ yv, spec_shortform_username p1.given p1.family,
      initial_password_formula p1.lehrerid
        (spec_shortform_username p1.given p1.family)
        (d ++ "." ++ mo ++ "." ++ yv)⟩,
      ⟨p2.lehrerid, p2.family, p2.given, p2.institutionrole, p2.email,
        d ++ "." ++ mo ++ "." ++ yv,
        spec_shortform_username p1.given p1.family ++ "1",
        initial_password_formula p2.lehrerid
          (spec_shortform_username p1.given p1.family ++ "1")
          (d ++ "." ++ mo ++ "." ++ yv)⟩, ?_, rfl, rfl, rfl, rfl, rfl⟩
    unfold parse_users_embed
    rw [foldlM_parse_cons_ok (parse_step_student [] none p1 yv mo d h1 hb),
      foldlM_parse_cons_ok (parse_step_unknown _ _ _ p2 h2 h3 h4)]
    rw [show resolve_collision []
        (spec_shortform_username p1.given p1.family) =
        spec_shortform_username p1.given p1.family from rfl]
    have hres : resolve_collision
        ([] ++ [⟨p1.lehrerid, p1.family, p1.given, p1.institutionrole,
          p1.email, d ++ "." ++ mo ++ "." ++ yv,
          spec_shortform_username p1.given p1.family,
          initial_password_formula p1.lehrerid
            (spec_shortform_username p1.given p1.family)
            (d ++ "." ++ mo ++ "." ++ yv)⟩])
        (spec_shortform_username p1.given p1.family) =
        spec_shortform_username p1.given p1.family ++ "1" := by
      simp [resolve_collision]
    rw [hres]
    rfl
  · unfold parse_users_embed
    rw [List.foldlM_cons, parse_step_unknown_first [] p2 h2 h3 h4]
    rfl

/-- Claim C10 (witness): the amended theorem applied to a concrete
Student followed by a `"Faculty"`-role person, and to that person
alone. -/
theorem claim_C10_witness :
    (∃ u1 u2 : User,
      parse_users_embed []
        [⟨"a1", "Müller", "Michael", "Student", "", "2008-05-12"⟩,
         ⟨"a2", "Schmidt", "Anna", "Faculty", "", "1990-01-01"⟩] =
        .ok [u1, u2] ∧
      u2.lehrerid = "a2" ∧ u2.name = "Schmidt" ∧
      u2.institutionrole = "Faculty" ∧
      u2.birthday = u1.birthday ∧
      u2.username = u1.username ++ "1") ∧
    parse_users_embed []
      [⟨"a2", "Schmidt", "Anna", "Faculty", "", "1990-01-01"⟩] =
      .error () :=
  claim_C10_role_dispatch_amended
    ⟨"a1", "Müller", "Michael", "Student", "", "2008-05-12"⟩
    ⟨"a2", "Schmidt", "Anna", "Faculty", "", "1990-01-01"⟩
    "2008" "05" "12" rfl (by decide) (by decide) (by decide) (by decide)

/-! ### Course-list resolution (claim C4) -/

/-- The course fold equals the suffix-based description: a lookup miss
discards everything accumulated so far, so only the memberships after the
last unresolvable one contribute. -/
lemma courses_foldl_spec (gs : List Group) (cs : List String) :
    cs.foldl (courses_step gs) [] = spec_courses gs cs := by
  induction cs using List.reverseRecOn with
  | nil => rfl
  | append_singleton cs c ih =>
    rw [List.foldl_append, List.foldl_cons, List.foldl_nil, ih]
    unfold spec_courses resolvable_suffix courses_step
    rw [List.reverse_append, List.reverse_singleton, List.singleton_append,
      List.takeWhile_cons]
    cases hf : find_group_name gs c with
    | none => simp [hf]
    | some n =>
      simp only [hf, Option.isSome_some, if_true, List.reverse_cons,
        List.filterMap_append]
      rw [show (List.filterMap (spec_course_name gs) [c]) =
          (if n = "" then [] else [n]) from by
        by_cases hn : n = "" <;>
          simp [List.filterMap, spec_course_name, hf, hn]]
      by_cases hn : n = "" <;> simp [hn]

/-- Claim C4 (counterexample): a membership whose group id is unknown does
affect the other entries — it resets the accumulated list, so with course
ids `gA, gX, gB` (where `gX` is unknown) only `["B"]` is returned instead
of `["A", "B"]`. -/
theorem claim_C4_counterexample :
    return_list_of_courses_of_student "s1"
      [⟨0, "gA", "s1"⟩, ⟨1, "gX", "s1"⟩, ⟨2, "gB", "s1"⟩]
      [⟨"gA", "A", ""⟩, ⟨"gB", "B", ""⟩] = ["B"] ∧
    (["B"] : List String) ≠ ["A", "B"] := by
  constructor
  · rfl
  · decide

/-- Claim C4 (amended): the returned list is the canonicalized names of
the groups referenced by the memberships *after the last membership whose
group id matches no known group* (a miss silently resets the accumulated
list), in membership iteration order, duplicates retained, empty names
skipped; when every referenced group id is known this coincides with the
claim's description. -/
theorem claim_C4_courses_amended (studentid : String)
    (memberships : List Membership) (groups : List Group) :
    return_list_of_courses_of_student studentid memberships groups =
      spec_courses groups
        ((memberships.filter (fun m => m.nameid = studentid)).map
          Membership.groupid) ∧
    ((∀ c ∈ (memberships.filter (fun m => m.nameid = studentid)).map
        Membership.groupid, (find_group_name groups c).isSome) →
      return_list_of_courses_of_student studentid memberships groups =
        ((memberships.filter (fun m => m.nameid = studentid)).map
          Membership.groupid).filterMap (spec_course_name groups)) := by
  constructor
  · exact courses_foldl_spec groups _
  · intro hall
    unfold return_list_of_courses_of_student
    rw [courses_foldl_spec groups _]
    unfold spec_courses
    congr 1
    unfold resolvable_suffix
    rw [List.takeWhile_eq_self_iff.mpr, List.reverse_reverse]
    intro c hc
    exact hall c (List.mem_reverse.mp hc)

/-- Claim C4 (witness): the amended theorem at a concrete input with a
lookup miss, and at one where every group resolves. -/
theorem claim_C4_witness :
    return_list_of_courses_of_student "s1"
        [⟨0, "gA", "s1"⟩, ⟨1, "gX", "s1"⟩, ⟨2, "gB", "s1"⟩]
        [⟨"gA", "A", ""⟩, ⟨"gB", "B", ""⟩] =
      spec_courses [⟨"gA", "A", ""⟩, ⟨"gB", "B", ""⟩]
        ((([⟨0, "gA", "s1"⟩, ⟨1, "gX", "s1"⟩,
            ⟨2, "gB", "s1"⟩] : List Membership).filter
          (fun m => m.nameid = "s1")).map Membership.groupid) ∧
    return_list_of_courses_of_student "s1"
        [⟨0, "gA", "s1"⟩, ⟨1, "gB", "s1"⟩, ⟨2, "gA", "s1"⟩]
        [⟨"gA", "A", ""⟩, ⟨"gB", "B", ""⟩] =
      ((([⟨0, "gA", "s1"⟩, ⟨1, "gB", "s1"⟩,
            ⟨2, "gA", "s1"⟩] : List Membership).filter
          (fun m => m.nameid = "s1")).map Membership.groupid).filterMap
        (spec_course_name [⟨"gA", "A", ""⟩, ⟨"gB", "B", ""⟩]) :=
  ⟨(claim_C4_courses_amended "s1"
      [⟨0, "gA", "s1"⟩, ⟨1, "gX", "s1"⟩, ⟨2, "gB", "s1"⟩]
      [⟨"gA", "A", ""⟩, ⟨"gB", "B", ""⟩]).1,
   (claim_C4_courses_amended "s1"
      [⟨0, "gA", "s1"⟩, ⟨1, "gB", "s1"⟩, ⟨2, "gA", "s1"⟩]
      [⟨"gA", "A", ""⟩, ⟨"gB", "B", ""⟩]).2 (by decide)⟩

/-! ### Group canonicalization (claims C6, C7) -/

/-- A substring test fails whenever some character of the pattern does not
occur in the searched string. -/
lemma pyIn_false_of_char (sub s : String) (c : Char) (hc : c ∈ sub.data)
    (hs : c ∉ s.data) : pyIn sub s = false := by
  unfold pyIn
  rw [decide_eq_false_iff_not]
  intro hin
  exact hs (hin.subset hc)

/-- Claim C6 (counterexample): canonicalizing the homeroom-class group
named `"Klasse 07D Schueler"` (with school year `"24"`) yields
`"07DS24"`, not the bare `"07DS"` the claim asserts. -/
theorem claim_C6_counterexample :
    rename_one "24" [] "Klasse 07D Schueler" = .ok "07DS24" ∧
    ("07DS24" : String) ≠ "07DS" := by
  constructor
  · rfl
  · decide

/-- Claim C6 (amended): canonicalizing a group named
`"Klasse 07D Schueler"` yields `"07DS"` with the two-digit school-year
code appended, for every all-digit school year and every mapping table. -/
theorem claim_C6_klasse_amended (schuljahr : String)
    (mapping : List (String × String))
    (hyr : ∀ c ∈ schuljahr.data, c.isDigit = true) :
    rename_one schuljahr mapping "Klasse 07D Schueler" =
      .ok ("07DS" ++ schuljahr) := by
  have hks : klasse_rename schuljahr "Klasse 07D Schueler" =
      "07DS" ++ schuljahr := rfl
  have habsent : ∀ ch : Char, ch ∉ ("07DS" : String).data →
      ch.isDigit = false → ch ∉ ("07DS" ++ schuljahr).data := by
    intro ch h1 h2 hmem
    rw [String.data_append] at hmem
    rcases List.mem_append.mp hmem with h | h
    · exact h1 h
    · rw [hyr ch h] at h2; cases h2
  have hB : pyIn "BI8" ("07DS" ++ schuljahr) = false :=
    pyIn_false_of_char _ _ 'B' (by decide)
      (habsent 'B' (by decide) (by decide))
  have hP : pyIn "(" ("07DS" ++ schuljahr) = false :=
    pyIn_false_of_char _ _ '(' (by decide)
      (habsent '(' (by decide) (by decide))
  have hAS : pyIn "Alle - Schueler" ("07DS" ++ schuljahr) = false :=
    pyIn_false_of_char _ _ 'A' (by decide)
      (habsent 'A' (by decide) (by decide))
  have hAL : pyIn "Alle - Lehrer" ("07DS" ++ schuljahr) = false :=
    pyIn_false_of_char _ _ 'A' (by decide)
      (habsent 'A' (by decide) (by decide))
  have hF : pyIn "Fach" ("07DS" ++ schuljahr) = false :=
    pyIn_false_of_char _ _ 'F' (by decide)
      (habsent 'F' (by decide) (by decide))
  have hBe : pyIn "Bereich" ("07DS" ++ schuljahr) = false :=
    pyIn_false_of_char _ _ 'B' (by decide)
      (habsent 'B' (by decide) (by decide))
  have hKl : pyIn "Klasse" "Klasse 07D Schueler" = true := rfl
  unfold rename_one
  simp [hKl, hks, hB, hP, hAS, hAL, hF, hBe, Except.bind]

/-- Claim C6 (witness): the amended theorem at school year `"24"`. -/
theorem claim_C6_witness :
    rename_one "24" [] "Klasse 07D Schueler" = .ok ("07DS" ++ "24") :=
  claim_C6_klasse_amended "24" [] (by decide)

/-- Claim C7 (counterexample): the device-serial roster lookup of
`create_jamf_accounts` (line 726, over the registry built by
`utils.get_dict_name_serial`) is another mapping lookup that raises on a
miss instead of dropping silently — refuting the claim's assertion that
the `"Fach"`/`"Bereich"` path is the only raising mapping lookup. -/
theorem claim_C7_counterexample :
    serials_from_roster [("iPadA", "SER1")] ["iPadB"] = .error () ∧
    serials_from_roster [("iPadA", "SER1")] ["iPadA"] = .ok ["SER1"] :=
  ⟨rfl, rfl⟩

/-- Claim C7 (amended): for a group name containing `"Fach"` or
`"Bereich"` that triggers none of the earlier rename branches (and whose
mapped value does not itself contain `"Bereich"`), canonicalization
raises if and only if the name is absent from the curated table, and
returns the mapped value otherwise.  (This is the only lookup raising the
spec's `MappingMissingError`; the device-serial roster lookup also
raises, so it is not the only raising lookup in the program.) -/
theorem claim_C7_fach_bereich_amended (schuljahr : String)
    (mapping : List (String × String)) (n : String)
    (hfb : pyIn "Fach" n = true ∨ pyIn "Bereich" n = true)
    (hK : pyIn "Klasse" n = false) (hB : pyIn "BI8" n = false)
    (hP : pyIn "(" n = false)
    (hAS : pyIn "Alle - Schueler" n = false)
    (hAL : pyIn "Alle - Lehrer" n = false)
    (hv : pyIn "Fach" n = true →
      ∀ v, List.lookup n mapping = some v → pyIn "Bereich" v = false) :
    (List.lookup n mapping = none →
      rename_one schuljahr mapping n = .error ()) ∧
    (∀ v, List.lookup n mapping = some v →
      rename_one schuljahr mapping n = .ok v) := by
  constructor
  · intro hnone
    by_cases hF : pyIn "Fach" n = true
    · simp [rename_one, hK, hB, hP, hAS, hAL, hF, hnone, Except.bind]
    · have hBe : pyIn "Bereich" n = true := hfb.resolve_left hF
      simp [rename_one, hK, hB, hP, hAS, hAL, hF, hBe, hnone, Except.bind]
  · intro v hsome
    by_cases hF : pyIn "Fach" n = true
    · have hvB := hv hF v hsome
      simp [rename_one, hK, hB, hP, hAS, hAL, hF, hsome, hvB, Except.bind]
    · have hBe : pyIn "Bereich" n = true := hfb.resolve_left hF
      simp [rename_one, hK, hB, hP, hAS, hAL, hF, hBe, hsome, Except.bind]

/-- Claim C7 (witness): the amended theorem at the concrete name
`"Fach Informatik"`, once with a table containing it and once with an
empty table. -/
theorem claim_C7_witness :
    rename_one "24" [("Fach Informatik", "IF")] "Fach Informatik" =
      .ok "IF" ∧
    rename_one "24" [] "Fach Informatik" = .error () := by
  constructor
  · exact (claim_C7_fach_bereich_amended "24" [("Fach Informatik", "IF")]
      "Fach Informatik" (Or.inl (by decide)) (by decide) (by decide)
      (by decide) (by decide) (by decide)
      (by
        intro _ v hv
        rw [show List.lookup "Fach Informatik" [("Fach Informatik", "IF")] =
          some "IF" from rfl] at hv
        cases hv
        decide)).2 "IF" rfl
  · exact (claim_C7_fach_bereich_amended "24" [] "Fach Informatik"
      (Or.inl (by decide)) (by decide) (by decide) (by decide) (by decide)
      (by decide) (by intro _ v hv; cases hv)).1 rfl

/-! ### Catch-all expansion (claim C5) -/

lemma joinCommaL_mem_infix (x : List Char) (xs : List (List Char))
    (hx : x ∈ xs) : x <:+: joinCommaL xs := by
  induction xs with
  | nil => cases hx
  | cons y ys ih =>
    cases ys with
    | nil =>
      rcases List.mem_singleton.mp hx with rfl
      exact List.infix_refl _
    | cons z zs =>
      rw [joinCommaL]
      rcases List.mem_cons.mp hx with rfl | hx2
      · exact ((List.prefix_append x (',' :: joinCommaL (z :: zs)))).isInfix
      · exact (ih hx2).trans
          ((List.suffix_cons ',' _).trans
            (List.suffix_append y _)).isInfix

/-- A course that occurs in the list occurs as a substring of the
comma-joined course string. -/
lemma pyIn_of_mem (c : String) (courses : List String) (h : c ∈ courses) :
    pyIn c (pyJoinComma courses) = true := by
  unfold pyIn pyJoinComma
  rw [decide_eq_true_eq]
  exact joinCommaL_mem_infix c.data _ (List.mem_map_of_mem String.data h)

lemma splitAux_append_no_comma (l : List Char) :
    ∀ (r cur : List Char), (∀ c ∈ l, c ≠ ',') →
      splitAux [','] (l ++ r) cur = splitAux [','] r (l.reverse ++ cur) := by
  induction l with
  | nil => intro r cur _; simp [splitAux]
  | cons c l2 ih =>
    intro r cur hl
    have hc : c ≠ ',' := hl c (List.mem_cons_self c l2)
    unfold splitAux
    rw [show ((c :: l2) ++ r).length = (l2 ++ r).length + 1 from by simp]
    show (if ([','] : List Char) ≠ [] ∧
        List.isPrefixOf [','] (c :: (l2 ++ r)) = true then
          cur.reverse :: splitFuel [','] (l2 ++ r).length
            (List.drop ([','] : List Char).length (c :: (l2 ++ r))) []
        else splitFuel [','] (l2 ++ r).length (l2 ++ r) (c :: cur)) = _
    have hpre : List.isPrefixOf [','] (c :: (l2 ++ r)) = false := by
      simp [List.isPrefixOf]
      exact fun h => hc h.symm
    rw [hpre, if_neg (by simp)]
    have hrec := ih r (c :: cur) (fun x hx => hl x (List.mem_cons_of_mem c hx))
    unfold splitAux at hrec
    rw [hrec]
    simp

lemma splitAux_comma_cons (r cur : List Char) :
    splitAux [','] (',' :: r) cur = cur.reverse :: splitAux [','] r [] := by
  unfold splitAux
  rw [show (',' :: r).length = r.length + 1 from rfl]
  show (if ([','] : List Char) ≠ [] ∧
      List.isPrefixOf [','] (',' :: r) = true then
        cur.reverse :: splitFuel [','] r.length
          (List.drop ([','] : List Char).length (',' :: r)) []
      else splitFuel [','] r.length r (',' :: cur)) = _
  rw [if_pos ⟨by simp, by simp [List.isPrefixOf]⟩]
  rfl

lemma splitAux_join : ∀ cs : List String, cs ≠ [] →
    (∀ c ∈ cs, ∀ ch ∈ c.data, ch ≠ ',') →
    splitAux [','] (joinCommaL (cs.map String.data)) [] =
      cs.map String.data := by
  intro cs
  induction cs with
  | nil => intro h _; cases h rfl
  | cons c cs2 ih =>
    intro _ hnc2
    cases cs2 with
    | nil =>
      show splitAux [','] (joinCommaL [c.data]) [] = [c.data]
      rw [show joinCommaL [c.data] = c.data ++ [] from by simp [joinCommaL]]
      rw [splitAux_append_no_comma c.data [] []
        (hnc2 c (List.mem_cons_self c []))]
      simp [splitAux, splitFuel]
    | cons c2 cs3 =>
      show splitAux [','] (joinCommaL (c.data :: c2.data ::
        cs3.map String.data)) [] = _
      rw [joinCommaL]
      rw [splitAux_append_no_comma c.data _ []
        (hnc2 c (List.mem_cons_self c _))]
      rw [List.append_nil, splitAux_comma_cons, List.reverse_reverse]
      have htail := ih (by simp) (fun x hx => hnc2 x (List.mem_cons_of_mem c hx))
      simp only [List.map_cons] at htail
      rw [htail]
      rfl

/-- Splitting the comma-join of comma-free course names returns exactly
the original list. -/
lemma pySplit_join (courses : List String) (hne : courses ≠ [])
    (hnc : ∀ c ∈ courses, ∀ ch ∈ c.data, ch ≠ ',') :
    pySplit (pyJoinComma courses) "," = courses := by
  unfold pySplit pyJoinComma
  rw [data_mk, show (("," : String).data) = [','] from rfl,
    splitAux_join courses hne hnc]
  have hid : ∀ l : List String,
      List.map String.mk (List.map String.data l) = l := by
    intro l
    induction l with
    | nil => rfl
    | cons a t ih2 =>
      show String.mk a.data :: List.map String.mk (List.map String.data t) =
        a :: t
      rw [ih2]
  exact hid courses

/-- Claim C5 (counterexample): the student emitter applies no catch-all
expansion — a student whose course list contains `"AlleS"` gets the
course list written as-is, marker included and unmapped; and the teacher
emitter's expansion is a substring filter plus a letter rewrite with a
hard-coded supplementary suffix, not a pass through the group mapping
table. -/
theorem claim_C5_counterexample :
    student_groups_field ["07DS24", "AlleS"] = "07DS24,AlleS" ∧
    pyIn "AlleS" (student_groups_field ["07DS24", "AlleS"]) = true ∧
    teacher_groups_field ["09DS24", "AlleL"] =
      some ("09DS24" ++ teacher_supplementary) := ⟨rfl, rfl, rfl⟩

/-- Claim C5 (amended): the student path never expands or maps — the
`Groups` field is always the comma-join of the course list.  On the
teacher path a row is emitted only when `"AlleL"` occurs in the joined
course string; the groups are then the courses filtered to those
containing `"09"`, `"10"`, `"EF"` or `"Q1"` (excluding `EFL24`, `Q1L24`,
`Q2L24`), with `L` rewritten to `S` in six-character `09`/`10` groups,
plus the fixed `iPads-Lehrerzimmer` supplementary identifiers — no group
mapping table is consulted on either path. -/
theorem claim_C5_catchall_amended (courses : List String)
    (h1 : "AlleL" ∈ courses)
    (h2 : ∀ c ∈ courses, ∀ ch ∈ c.data, ch ≠ ',') :
    teacher_groups_field courses =
      some (pyJoinComma ((courses.filter teacher_filter_keep).map
        teacher_update) ++ teacher_supplementary) ∧
    ∀ cs : List String, student_groups_field cs = pyJoinComma cs := by
  constructor
  · have hin : pyIn "AlleL" (pyJoinComma courses) = true :=
      pyIn_of_mem _ _ h1
    show (if pyIn "AlleL" (pyJoinComma courses) = true then
        some (pyJoinComma (((pySplit (pyJoinComma courses) ",").filter
          teacher_filter_keep).map teacher_update) ++ teacher_supplementary)
      else none) = _
    rw [hin, if_pos rfl,
      pySplit_join courses (by rintro rfl; cases h1) h2]
  · intro cs
    rfl

/-- Claim C5 (witness): the amended theorem at the course list
`["09DS24", "AlleL"]`. -/
theorem claim_C5_witness :
    teacher_groups_field ["09DS24", "AlleL"] =
      some (pyJoinComma (((["09DS24", "AlleL"] : List String).filter
        teacher_filter_keep).map teacher_update) ++ teacher_supplementary) ∧
    ∀ cs : List String, student_groups_field cs = pyJoinComma cs :=
  claim_C5_catchall_amended ["09DS24", "AlleL"] (by decide) (by decide)

/-! ### Username alphabet invariant (claim C9) -/

lemma username_matches_append_one (s : String)
    (h : username_matches s = true) :
    username_matches (s ++ "1") = true := by
  unfold username_matches at h ⊢
  rw [String.data_append]
  rw [Bool.and_eq_true] at h ⊢
  constructor
  · cases s.data <;> rfl
  · rw [List.all_append, Bool.and_eq_true]
    exact ⟨h.2, by decide⟩

lemma resolve_collision_matches (users : List User) (c : String)
    (h : username_matches c = true) :
    username_matches (resolve_collision users c) = true := by
  unfold resolve_collision
  induction users generalizing c with
  | nil => exact h
  | cons u us ih =>
    rw [List.foldl_cons]
    by_cases hc : c = u.username
    · simp only [if_pos hc]
      exact ih _ (username_matches_append_one c h)
    · simp only [if_neg hc]
      exact ih _ h

lemma username_matches_pyLower (s : String) (hne : s.data ≠ [])
    (hok : ∀ c ∈ s.data, username_char_ok c.toLower = true) :
    username_matches (pyLower s) = true := by
  unfold username_matches pyLower
  rw [data_mk, Bool.and_eq_true]
  constructor
  · cases hd : s.data with
    | nil => exact absurd hd hne
    | cons a t => rfl
  · rw [List.all_map]
    exact List.all_eq_true.mpr fun c hc => hok c hc

lemma shortform_username_matches (g f : String)
    (hg : ∀ c ∈ (first_space_token (custom_transliterate g)).data,
      username_char_ok c.toLower = true)
    (hf : ∀ c ∈ (strip_spaces_hyphens (custom_transliterate f)).data,
      username_char_ok c.toLower = true)
    (hne : (first_space_token (custom_transliterate g)).data ≠ [] ∨
      (strip_spaces_hyphens (custom_transliterate f)).data ≠ []) :
    username_matches (spec_shortform_username g f) = true := by
  unfold spec_shortform_username
  apply username_matches_pyLower
  · rw [String.data_append]
    unfold pyTake
    rw [data_mk, data_mk]
    intro hcon
    rcases List.append_eq_nil.mp hcon with ⟨hl, hr⟩
    rcases hne with h | h
    · rcases List.take_eq_nil_iff.mp hl with h4 | h0
      · cases h4
      · exact h h0
    · rcases List.take_eq_nil_iff.mp hr with h4 | h0
      · cases h4
      · exact h h0
  · intro c hc
    rw [String.data_append] at hc
    unfold pyTake at hc
    rw [data_mk, data_mk] at hc
    rcases List.mem_append.mp hc with h | h
    · exact hg c (List.take_subset 4 _ h)
    · exact hf c (List.take_subset 4 _ h)

lemma dotted_username_matches (g f : String)
    (hg : ∀ c ∈ (first_space_token (custom_transliterate g)).data,
      username_char_ok c.toLower = true)
    (hf : ∀ c ∈ (strip_spaces_hyphens (custom_transliterate f)).data,
      username_char_ok c.toLower = true) :
    username_matches (spec_dotted_username g f) = true := by
  unfold spec_dotted_username
  apply username_matches_pyLower
  · rw [String.data_append, String.data_append]
    intro hcon
    rcases List.append_eq_nil.mp hcon with ⟨hl, _⟩
    rcases List.append_eq_nil.mp hl with ⟨_, hdot⟩
    cases hdot
  · intro c hc
    rw [String.data_append, String.data_append] at hc
    rcases List.mem_append.mp hc with h | h
    · rcases List.mem_append.mp h with h2 | h2
      · exact hg c h2
      · rcases List.mem_singleton.mp h2 with rfl
        decide
    · exact hf c h

/-- A successful Student step, phrased via the already-formatted
birthday. -/
lemma parse_step_student_ok (users : List User)
    (prev : Option (String × String)) (p : PersonRaw) (bd : String)
    (h : p.institutionrole = "Student")
    (hb : format_birthday p.bday = .ok bd) :
    parse_step (users, prev) p =
      .ok (users ++
        [⟨p.lehrerid, p.family, p.given, p.institutionrole, p.email, bd,
          resolve_collision users (spec_shortform_username p.given p.family),
          initial_password_formula p.lehrerid
            (resolve_collision users
              (spec_shortform_username p.given p.family)) bd⟩],
        some (resolve_collision users
          (spec_shortform_username p.given p.family), bd)) := by
  unfold parse_step
  rw [h, hb, return_username_kurzform]
  rfl

/-- A Student step with an unsplittable birthday fails. -/
lemma parse_step_student_err (users : List User)
    (prev : Option (String × String)) (p : PersonRaw)
    (h : p.institutionrole = "Student")
    (hb : format_birthday p.bday = .error ()) :
    parse_step (users, prev) p = .error () := by
  unfold parse_step
  rw [h, hb, return_username_kurzform]
  rfl

/-- A faculty/extern step. -/
lemma parse_step_faculty_ok (users : List User)
    (prev : Option (String × String)) (p : PersonRaw)
    (h2 : p.institutionrole ≠ "Student")
    (h : p.institutionrole = "faculty" ∨ p.institutionrole = "extern") :
    parse_step (users, prev) p =
      .ok (users ++
        [⟨p.lehrerid, p.family, p.given, p.institutionrole, p.email, "",
          resolve_collision users (spec_dotted_username p.given p.family),
          initial_password_formula p.lehrerid
            (resolve_collision users
              (spec_dotted_username p.given p.family)) ""⟩],
        some (resolve_collision users
          (spec_dotted_username p.given p.family), "")) := by
  unfold parse_step
  rw [if_neg h2, if_pos h, return_username_dotted]
  rfl

/-- One successful `parse_users` step preserves the username-alphabet
invariant on both the collected users and the stale locals. -/
lemma parse_step_ok_inv (users : List User)
    (prev : Option (String × String)) (p : PersonRaw)
    (st2 : List User × Option (String × String))
    (hok : parse_step (users, prev) p = .ok st2) (hp : person_name_ok p)
    (hinv1 : ∀ u ∈ users, username_matches u.username = true)
    (hinv2 : ∀ s b, prev = some (s, b) → username_matches s = true) :
    (∀ u ∈ st2.1, username_matches u.username = true) ∧
    (∀ s b, st2.2 = some (s, b) → username_matches s = true) := by
  obtain ⟨us2, pv2⟩ := st2
  by_cases hrole : p.institutionrole = "Student"
  · cases hbday : format_birthday p.bday with
    | error e =>
      rw [parse_step_student_err users prev p hrole (by
        cases e
        exact hbday)] at hok
      exact Except.noConfusion hok
    | ok bd =>
      rw [parse_step_student_ok users prev p bd hrole hbday] at hok
      have hcand : username_matches
          (spec_shortform_username p.given p.family) = true := by
        rcases hp.1 hrole with ⟨hg, hf, hne⟩
        exact shortform_username_matches p.given p.family hg hf hne
      have hres := resolve_collision_matches users _ hcand
      injection hok with hst
      injection hst with hst1 hst2
      subst hst1
      subst hst2
      constructor
      · intro u hu
        rcases List.mem_append.mp hu with h | h
        · exact hinv1 u h
        · rcases List.mem_singleton.mp h with rfl
          exact hres
      · intro s b hsb
        have h1 : resolve_collision users
            (spec_shortform_username p.given p.family) = s :=
          congrArg Prod.fst (Option.some.inj hsb)
        exact h1 ▸ hres
  · by_cases hrole2 : p.institutionrole = "faculty" ∨
        p.institutionrole = "extern"
    · rw [parse_step_faculty_ok users prev p hrole hrole2] at hok
      have hcand : username_matches
          (spec_dotted_username p.given p.family) = true := by
        rcases hp.2 hrole2 with ⟨hg, hf⟩
        exact dotted_username_matches p.given p.family hg hf
      have hres := resolve_collision_matches users _ hcand
      injection hok with hst
      injection hst with hst1 hst2
      subst hst1
      subst hst2
      constructor
      · intro u hu
        rcases List.mem_append.mp hu with h | h
        · exact hinv1 u h
        · rcases List.mem_singleton.mp h with rfl
          exact hres
      · intro s b hsb
        have h1 : resolve_collision users
            (spec_dotted_username p.given p.family) = s :=
          congrArg Prod.fst (Option.some.inj hsb)
        exact h1 ▸ hres
    · cases hprev : prev with
      | none =>
        rw [hprev] at hok
        rw [parse_step_unknown_first users p hrole
          (fun h => hrole2 (Or.inl h)) (fun h => hrole2 (Or.inr h))] at hok
        exact Except.noConfusion hok
      | some pr =>
        rw [hprev] at hok
        rw [show pr = (pr.1, pr.2) from rfl] at hok
        rw [parse_step_unknown users pr.1 pr.2 p hrole
          (fun h => hrole2 (Or.inl h)) (fun h => hrole2 (Or.inr h))] at hok
        have hcand : username_matches pr.1 = true :=
          hinv2 pr.1 pr.2 (by rw [hprev])
        have hres := resolve_collision_matches users _ hcand
        injection hok with hst
        injection hst with hst1 hst2
        subst hst1
        subst hst2
        constructor
        · intro u hu
          rcases List.mem_append.mp hu with h | h
          · exact hinv1 u h
          · rcases List.mem_singleton.mp h with rfl
            exact hres
        · intro s b hsb
          have h1 : resolve_collision users pr.1 = s :=
            congrArg Prod.fst (Option.some.inj hsb)
          exact h1 ▸ hres

/-- The invariant carried through the whole fold. -/
lemma parse_fold_inv : ∀ (ps : List PersonRaw)
    (st : List User × Option (String × String)),
    (∀ p ∈ ps, person_name_ok p) →
    ((∀ u ∈ st.1, username_matches u.username = true) ∧
      (∀ s b, st.2 = some (s, b) → username_matches s = true)) →
    ∀ res, List.foldlM parse_step st ps = .ok res →
      (∀ u ∈ res.1, username_matches u.username = true) := by
  intro ps
  induction ps with
  | nil =>
    intro st _ hinv res hres
    rw [List.foldlM_nil] at hres
    injection hres with h
    subst h
    exact hinv.1
  | cons p ps2 ih =>
    intro st hps hinv res hres
    rw [List.foldlM_cons] at hres
    cases hstep : parse_step st p with
    | error e =>
      rw [hstep] at hres
      exact Except.noConfusion hres
    | ok st' =>
      rw [hstep] at hres
      replace hres : List.foldlM parse_step st' ps2 = .ok res := hres
      obtain ⟨users, prev⟩ := st
      exact ih st' (fun q hq => hps q (List.mem_cons_of_mem p hq))
        (parse_step_ok_inv users prev p st' hstep
          (hps p (List.mem_cons_self p ps2)) hinv.1 hinv.2) res hres

/-- Claim C9 (counterexample): for a parsed Student whose transliterated
given name is `"-"` (a hyphen) and family name `"x"`, the assigned
username is `"-x"`, which does not match `^[a-z0-9.]+$` — hyphens survive
in the given name's first token, so the invariant fails as stated. -/
theorem claim_C9_counterexample :
    (parse_users_embed []
      [⟨"a1", "x", "-", "Student", "", "2008-05-12"⟩]).map
        (List.map User.username) = .ok ["-x"] ∧
    username_matches "-x" = false := by
  constructor
  · rfl
  · decide

/-- Claim C9 (amended): for every parsed person, the assigned username
(after transliteration and collision resolution) is non-empty and matches
`^[a-z0-9.]+$`, provided every person's transliterated name material
(the given name's first space-delimited token and the family name with
spaces and hyphens stripped) consists of characters that lowercase into
`[a-z0-9.]`, and no Student has both parts empty.  Unrestricted, the
invariant is false (see the counterexample). -/
theorem claim_C9_username_invariant_amended (ps : List PersonRaw)
    (users : List User) (hps : ∀ p ∈ ps, person_name_ok p)
    (hok : parse_users_embed [] ps = .ok users) :
    ∀ u ∈ users, username_matches u.username = true := by
  unfold parse_users_embed at hok
  cases hfold : List.foldlM parse_step ([], none) ps with
  | error e =>
    rw [hfold] at hok
    exact Except.noConfusion hok
  | ok res =>
    rw [hfold] at hok
    injection hok with h
    subst h
    exact parse_fold_inv ps ([], none) hps
      ⟨fun u hu => absurd hu (List.not_mem_nil u),
       fun s b hsb => Option.noConfusion hsb⟩ res hfold

/-- Claim C9 (witness): the amended invariant at a concrete batch with a
Student, a faculty member, and a colliding Student. -/
theorem claim_C9_witness :
    ∃ us : List User,
      parse_users_embed []
        [⟨"a1", "Müller", "Michael", "Student", "", "2008-05-12"⟩,
         ⟨"a2", "Özdemir", "Jörg", "faculty", "", ""⟩,
         ⟨"a3", "Müller", "Michaela", "Student", "", "2007-01-02"⟩] =
        .ok us ∧
      ∀ u ∈ us, username_matches u.username = true :=
  ⟨_, rfl, claim_C9_username_invariant_amended
    [⟨"a1", "Müller", "Michael", "Student", "", "2008-05-12"⟩,
     ⟨"a2", "Özdemir", "Jörg", "faculty", "", ""⟩,
     ⟨"a3", "Müller", "Michaela", "Student", "", "2007-01-02"⟩]
    _ (by
      intro p hp
      unfold person_name_ok
      simp only [List.mem_cons, List.not_mem_nil, or_false] at hp
      rcases hp with rfl | rfl | rfl
      · exact ⟨fun _ => by decide, fun h => absurd h (by decide)⟩
      · exact ⟨fun h => absurd h (by decide), fun _ => by decide⟩
      · exact ⟨fun _ => by decide, fun h => absurd h (by decide)⟩) rfl⟩

end Schild
